import Mathlib

/-! cert-manager-webhook-active24cz: the record-reconciliation client.

A shallow embedding of `api/client.go` and of the challenge adapter of `main.go`.

* Go strings are Lean strings; `[]byte(s)` is the UTF-8 encoding of `s`.
* Go `int` / `int64` values are `Int`.
* A function returning `(T, error)` returns `Except GoError T`; one returning `error`
  returns `Except GoError Unit`.
* Byte slices that the client only hands from one library call to the next (request and
  response bodies) have an abstract type `β`; `Runtime.text` reads them as a string, which is
  what `%s` does.
* Everything outside the repository (net/http, encoding/json, time, the Kubernetes client) is a
  field of `Runtime`; the state of the outside world has type `σ` and is passed explicitly.
* `World.calls` is a ghost log of the calls of `Client.Request`, in order; `klog` output is not
  modelled.
-/

namespace Active24

/-! ## Go library functions used by the client -/

/-- Go: `strings.HasSuffix`. -/
def strings.HasSuffix (s suffix : String) : Bool :=
  suffix.data.isSuffixOf s.data

/-- Go: `strings.TrimSuffix`: `s` without the trailing `suffix`, or `s` itself when it does not
end in `suffix`. -/
def strings.TrimSuffix (s suffix : String) : String :=
  if strings.HasSuffix s suffix then
    String.mk (s.data.take (s.data.length - suffix.data.length))
  else s

/-- Go: `[]byte(s)`, the bytes of a string (UTF-8), as numbers below 256. -/
def bytesOf (s : String) : List Nat :=
  (s.data.flatMap String.utf8EncodeChar).map UInt8.toNat

/-! ### crypto/sha1 and crypto/hmac

The 32-bit words are natural numbers reduced `% 2 ^ 32`. -/

/-- Rotate a 32-bit word left by `n` bits. -/
def rotl32 (x n : Nat) : Nat := ((x <<< n) ||| (x >>> (32 - n))) % 2 ^ 32

/-- SHA-1 round constant. -/
def sha1K (t : Nat) : Nat :=
  if t < 20 then 0x5A827999 else if t < 40 then 0x6ED9EBA1
  else if t < 60 then 0x8F1BBCDC else 0xCA62C1D6

/-- SHA-1 round function. -/
def sha1F (t b c d : Nat) : Nat :=
  if t < 20 then (b &&& c) ||| ((b ^^^ (2 ^ 32 - 1)) &&& d)
  else if t < 40 then b ^^^ c ^^^ d
  else if t < 60 then (b &&& c) ||| (b &&& d) ||| (c &&& d)
  else b ^^^ c ^^^ d

/-- Big-endian value of four bytes. -/
def be32 : List Nat → Nat
  | [a, b, c, d] => ((a * 256 + b) * 256 + c) * 256 + d
  | _ => 0

/-- The `k` low bytes of `n`, big-endian. -/
def toBE (n : Nat) : Nat → List Nat
  | 0 => []
  | k + 1 => (n / 256 ^ k) % 256 :: toBE n k

/-- SHA-1 padding: a `0x80` byte, zeros up to 56 mod 64, then the bit length on 8 bytes. -/
def sha1Pad (msg : List Nat) : List Nat :=
  msg ++ [0x80] ++ List.replicate ((119 - msg.length % 64) % 64) 0 ++ toBE (msg.length * 8) 8

/-- The first `k` consecutive chunks of `n` elements. -/
def chunks (n : Nat) : Nat → List Nat → List (List Nat)
  | 0, _ => []
  | k + 1, l => l.take n :: chunks n k (l.drop n)

/-- Message schedule: extend the words `w` by `k` further words. -/
def schedule (w : List Nat) : Nat → List Nat
  | 0 => w
  | k + 1 =>
    let t := w.length
    schedule (w ++ [rotl32 (w.getD (t - 3) 0 ^^^ w.getD (t - 8) 0 ^^^ w.getD (t - 14) 0
      ^^^ w.getD (t - 16) 0) 1]) k

/-- The five chaining words of SHA-1. -/
structure Sha1State where
  h0 : Nat
  h1 : Nat
  h2 : Nat
  h3 : Nat
  h4 : Nat

/-- One of the 80 rounds. -/
def sha1Round (w : List Nat) (s : Sha1State) (t : Nat) : Sha1State :=
  let tmp := (rotl32 s.h0 5 + sha1F t s.h1 s.h2 s.h3 + s.h4 + w.getD t 0 + sha1K t) % 2 ^ 32
  ⟨tmp, s.h0, rotl32 s.h1 30, s.h2, s.h3⟩

/-- Compression of one 64-byte block. -/
def sha1Block (s : Sha1State) (block : List Nat) : Sha1State :=
  let w := schedule ((chunks 4 16 block).map be32) 64
  let r := (List.range 80).foldl (sha1Round w) s
  ⟨(s.h0 + r.h0) % 2 ^ 32, (s.h1 + r.h1) % 2 ^ 32, (s.h2 + r.h2) % 2 ^ 32,
    (s.h3 + r.h3) % 2 ^ 32, (s.h4 + r.h4) % 2 ^ 32⟩

/-- Go: `sha1.Sum`, the 20-byte digest. -/
def sha1 (msg : List Nat) : List Nat :=
  let p := sha1Pad msg
  let s := (chunks 64 (p.length / 64) p).foldl sha1Block
    ⟨0x67452301, 0xEFCDAB89, 0x98BADCFE, 0x10325476, 0xC3D2E1F0⟩
  toBE s.h0 4 ++ toBE s.h1 4 ++ toBE s.h2 4 ++ toBE s.h3 4 ++ toBE s.h4 4

/-- The 64-byte block key of HMAC: a key longer than a block is hashed, then the key is
padded with zero bytes. -/
def hmacKey (key : List Nat) : List Nat :=
  let k := if key.length > 64 then sha1 key else key
  k ++ List.replicate (64 - k.length) 0

/-- Go: `h := hmac.New(sha1.New, key); h.Write(msg); h.Sum(nil)`. -/
def hmacSha1 (key msg : List Nat) : List Nat :=
  let k := hmacKey key
  sha1 (k.map (· ^^^ 0x5c) ++ sha1 (k.map (· ^^^ 0x36) ++ msg))

/-- Go: the two lowercase hexadecimal digits `%x` prints for one byte. -/
def hexByte (b : Nat) : List Char := [Nat.digitChar (b / 16), Nat.digitChar (b % 16)]

/-- Go: `fmt.Sprintf("%x", bs)` for a byte slice. -/
def hexBytes (bs : List Nat) : String := String.mk (bs.flatMap hexByte)

/-! ## Data model (`api/client.go`) -/

/-- Go: a non-nil `error`, with the text its `Error()` method returns. -/
structure GoError where
  msg : String
deriving DecidableEq, Repr

structure Config where
  ApiKey : String
  ApiSecret : String
  DnsZone : String
  ServiceId : String
deriving DecidableEq, Repr

structure DnsRecord where
  Type' : String
  Name : String
  Content : String
  Ttl : Int
deriving DecidableEq, Repr

structure DnsRecordWithId where
  Id : Int
  DnsRecord : DnsRecord
deriving DecidableEq, Repr

structure DnsRecords where
  Data : List DnsRecordWithId
deriving DecidableEq, Repr

structure DnsFilters where
  Name : String
  Type' : List String
  Content : String
  Ttl : Int
deriving DecidableEq, Repr

structure DnsGetParams where
  Filters : DnsFilters
deriving DecidableEq, Repr

structure Client where
  Config : Config
deriving DecidableEq, Repr

/-! ## The world outside the repository -/

/-- The request built by `newRequest`: method, URL and its path, body, the three headers and
the basic-auth credentials. -/
structure HttpRequest (β : Type) where
  Method : String
  URL : String
  Path : String
  Body : Option β
  ContentType : String
  Accept : String
  XDate : String
  Username : String
  Password : String

/-- The response `httpClient.Do` returns: the status code, and what `io.ReadAll(resp.Body)`
gives. -/
structure HttpResponse (β : Type) where
  StatusCode : Int
  Body : Except GoError β

/-- Go: `corev1.SecretKeySelector`, the fields the webhook reads. -/
structure SecretKeySelector where
  Name : String
  Key : String
deriving DecidableEq, Repr

/-- Go: `active24czConfig` of `main.go`. -/
structure active24czConfig where
  APIKeySecretRef : SecretKeySelector
deriving DecidableEq, Repr

/-- Go: `corev1.Secret`; `Data` is the map from entry name to value. -/
structure Secret where
  Data : List (String × String)
deriving DecidableEq, Repr

/-- Go: `secret.Data[key]` converted to a string; a missing entry gives the empty string. -/
def Secret.get (secret : Secret) (key : String) : String :=
  (secret.Data.lookup key).getD ""

/-- The libraries and services the code calls: net/http, encoding/json, time and the Kubernetes
API. `σ` is the state of the outside world, `β` the type of byte slices. -/
structure Runtime (σ β : Type) where
  /-- Go: `http.NewRequest` parsing the URL: an error, or the path `req.URL.Path`. -/
  parseURL : String → Except GoError String
  /-- Go: `time.Now().UTC().Unix()`. -/
  now : σ → Int
  /-- Go: `timestamp.Format(time.RFC3339)`. -/
  formatRFC3339 : Int → String
  /-- Go: `httpClient.Do(req)` followed by `io.ReadAll(resp.Body)`. -/
  Do : HttpRequest β → σ → Except GoError (HttpResponse β) × σ
  /-- Go: `json.Marshal(record.GetParams())`. -/
  marshalParams : DnsGetParams → Except GoError β
  /-- Go: `json.Marshal(record)`. -/
  marshalRecord : DnsRecord → Except GoError β
  /-- Go: `json.Unmarshal(resp, &records)`. -/
  unmarshalRecords : β → Except GoError DnsRecords
  /-- Go: `json.Unmarshal(cfgJSON.Raw, &cfg)`. -/
  unmarshalConfig : β → Except GoError active24czConfig
  /-- Go: `c.client.CoreV1().Secrets(ns).Get(ctx, name, opts)`. -/
  getSecret : String → String → σ → Except GoError Secret
  /-- A byte slice read as a string, as `%s` prints it. -/
  text : β → String

/-- One call of `Client.Request`: the method, the URL it addresses and the data passed. -/
structure Call (β : Type) where
  Method : String
  URL : String
  Data : Option β

/-- The state threaded through the client: the outside world, and the calls of
`Client.Request` made so far (a ghost log). -/
structure World (σ β : Type) where
  st : σ
  calls : List (Call β)

/-! ## `api/client.go` -/

/-- Construct GET request parameters. -/
def DnsRecord.GetParams (r : DnsRecord) : DnsGetParams :=
  ⟨⟨r.Name, [r.Type'], r.Content, r.Ttl⟩⟩

/-- Create a new Client instance. -/
def NewClient (config : Config) : Client := ⟨config⟩

/-- Get base API URL. -/
def Client.BaseUrl (_c : Client) : String := "https://rest.active24.cz"

/-- Get full API URL. -/
def Client.ApiUrl (c : Client) (id : Option Int) : String :=
  let s := match id with
    | none => ""
    | some i => "/" ++ toString i
  c.BaseUrl ++ "/v2/service/" ++ c.Config.ServiceId ++ "/dns/record" ++ s

/-- The string `signatureHash` writes into the HMAC: `"%s %s %d"`. -/
def signatureMessage (method path : String) (time : Int) : String :=
  method ++ " " ++ path ++ " " ++ toString time

/-- Get a signature hash. -/
def signatureHash (secret method path : String) (time : Int) : String :=
  hexBytes (hmacSha1 (bytesOf secret) (bytesOf (signatureMessage method path time)))

variable {σ β : Type}

/-- Create a new HTTP request. -/
def Client.newRequest (rt : Runtime σ β) (c : Client) (method url : String) (data : Option β)
    (st : σ) : Except GoError (HttpRequest β) :=
  match rt.parseURL url with
  | .error err => .error err
  | .ok path =>
    let timestamp := rt.now st
    let signature := signatureHash c.Config.ApiSecret method path timestamp
    .ok ⟨method, url, path, data, "application/json", "application/json",
      rt.formatRFC3339 timestamp, c.Config.ApiKey, signature⟩

/-- Make an API request. The call is appended to the ghost log first. -/
def Client.Request (rt : Runtime σ β) (c : Client) (method : String) (id : Option Int)
    (data : Option β) (w : World σ β) : Except GoError β × World σ β :=
  let calls := w.calls ++ [⟨method, c.ApiUrl id, data⟩]
  match c.newRequest rt method (c.ApiUrl id) data w.st with
  | .error err => (.error err, ⟨w.st, calls⟩)
  | .ok req =>
    match rt.Do req w.st with
    | (.error err, st) => (.error err, ⟨st, calls⟩)
    | (.ok resp, st) =>
      match resp.Body with
      | .error err => (.error err, ⟨st, calls⟩)
      | .ok body =>
        if resp.StatusCode ≥ 400 then
          (.error ⟨"api request failed: " ++ rt.text body⟩, ⟨st, calls⟩)
        else (.ok body, ⟨st, calls⟩)

/-- Find matching DNS records. -/
def Client.FindRecords (rt : Runtime σ β) (c : Client) (record : DnsRecord) (w : World σ β) :
    Except GoError (List DnsRecordWithId) × World σ β :=
  match rt.marshalParams record.GetParams with
  | .error err => (.error err, w)
  | .ok data =>
    match c.Request rt "GET" none (some data) w with
    | (.error err, w) => (.error err, w)
    | (.ok resp, w) =>
      match rt.unmarshalRecords resp with
      | .error err =>
        (.error ⟨"failed to unmarshal api response " ++ rt.text resp ++ ": " ++ err.msg⟩, w)
      | .ok records => (.ok records.Data, w)

/-- Go: `%v` of a `DnsRecord` value. -/
def DnsRecord.format (r : DnsRecord) : String :=
  "\x7b" ++ r.Type' ++ " " ++ r.Name ++ " " ++ r.Content ++ " " ++ toString r.Ttl ++ "\x7d"

/-- Go: `%v` of a `DnsRecordWithId` value. -/
def DnsRecordWithId.format (f : DnsRecordWithId) : String :=
  "\x7b" ++ toString f.Id ++ " " ++ f.DnsRecord.format ++ "\x7d"

/-- Go: `fmt.Errorf("expected record %v, found %v", record, foundRecords)`, with `record` a
pointer and `foundRecords` a slice. -/
def expectedRecordError (record : DnsRecord) (foundRecords : List DnsRecordWithId) : GoError :=
  ⟨"expected record &" ++ record.format ++ ", found ["
    ++ " ".intercalate (foundRecords.map DnsRecordWithId.format) ++ "]"⟩

/-- Get a DNS record's ID. In the one-candidate case the candidate's name is overwritten with
the trimmed name before the comparison, so the error text shows the trimmed name. -/
def Client.GetRecordId (rt : Runtime σ β) (c : Client) (record : DnsRecord) (w : World σ β) :
    Except GoError (Option Int) × World σ β :=
  match c.FindRecords rt record w with
  | (.error err, w) => (.error err, w)
  | (.ok foundRecords, w) =>
    if foundRecords.length = 0 then (.ok none, w)
    else
      match foundRecords with
      | [f0] =>
        let f : DnsRecordWithId := ⟨f0.Id, ⟨f0.DnsRecord.Type',
          strings.TrimSuffix f0.DnsRecord.Name c.Config.DnsZone, f0.DnsRecord.Content,
          f0.DnsRecord.Ttl⟩⟩
        if record = f.DnsRecord then (.ok (some f.Id), w)
        else (.error (expectedRecordError record [f]), w)
      | _ => (.error (expectedRecordError record foundRecords), w)

/-- Create a DNS record. -/
def Client.CreateRecord (rt : Runtime σ β) (c : Client) (record : DnsRecord) (w : World σ β) :
    Except GoError Unit × World σ β :=
  match c.GetRecordId rt record w with
  | (.error err, w) => (.error err, w)
  | (.ok (some _), w) => (.ok (), w)
  | (.ok none, w) =>
    match rt.marshalRecord record with
    | .error err => (.error err, w)
    | .ok data =>
      match c.Request rt "POST" none (some data) w with
      | (.error err, w) => (.error err, w)
      | (.ok _, w) => (.ok (), w)

/-- Delete a DNS record. -/
def Client.DeleteRecord (rt : Runtime σ β) (c : Client) (record : DnsRecord) (w : World σ β) :
    Except GoError Unit × World σ β :=
  match c.GetRecordId rt record w with
  | (.error err, w) => (.error err, w)
  | (.ok none, w) => (.ok (), w)
  | (.ok (some id), w) =>
    match c.Request rt "DELETE" (some id) none w with
    | (.error err, w) => (.error err, w)
    | (.ok _, w) => (.ok (), w)

/-- A method expression matching both CreateRecord and DeleteRecord. -/
abbrev Request (σ β : Type) : Type :=
  Client → DnsRecord → World σ β → Except GoError Unit × World σ β

/-! ## `main.go`: the challenge adapter -/

/-- Go: `v1alpha1.ChallengeRequest`, the fields the webhook reads. -/
structure ChallengeRequest (β : Type) where
  ResolvedFQDN : String
  ResolvedZone : String
  Key : String
  ResourceNamespace : String
  Config : Option β

/-- Decode the JSON configuration into the typed config struct. -/
def loadConfig (rt : Runtime σ β) (cfgJSON : Option β) : Except GoError active24czConfig :=
  match cfgJSON with
  | none => .ok ⟨⟨"", ""⟩⟩
  | some raw =>
    match rt.unmarshalConfig raw with
    | .error err => .error ⟨"error decoding solver config: " ++ err.msg⟩
    | .ok cfg => .ok cfg

/-- Load a Kubernetes secret. -/
def loadSecret (rt : Runtime σ β) (ch : ChallengeRequest β) (st : σ) : Except GoError Secret :=
  match loadConfig rt ch.Config with
  | .error err => .error err
  | .ok cfg =>
    let ns := ch.ResourceNamespace
    let name := cfg.APIKeySecretRef.Name
    match rt.getSecret ns name st with
    | .error err => .error ⟨"failed to load secret " ++ ns ++ "/" ++ name ++ ": " ++ err.msg⟩
    | .ok secret => .ok secret

/-- Create a new client using data from a secret. -/
def newClient (ch : ChallengeRequest β) (secret : Secret) : Client :=
  NewClient ⟨secret.get "apiKey", secret.get "apiSecret",
    strings.TrimSuffix ("." ++ ch.ResolvedZone) ".", secret.get "serviceId"⟩

/-- Create a DNS record for a challenge request. -/
def dnsRecord (ch : ChallengeRequest β) : DnsRecord :=
  ⟨"TXT", strings.TrimSuffix ch.ResolvedFQDN ("." ++ ch.ResolvedZone), ch.Key, 300⟩

/-- Make a DNS API request. -/
def makeRequest (rt : Runtime σ β) (ch : ChallengeRequest β) (req : Request σ β)
    (w : World σ β) : Except GoError Unit × World σ β :=
  match loadSecret rt ch w.st with
  | .error err => (.error err, w)
  | .ok secret => req (newClient ch secret) (dnsRecord ch) w

/-- Present the challenge record with the DNS provider. -/
def Present (rt : Runtime σ β) (ch : ChallengeRequest β) (w : World σ β) :
    Except GoError Unit × World σ β :=
  makeRequest rt ch (Client.CreateRecord rt) w

/-- Delete the challenge record from the DNS provider. -/
def CleanUp (rt : Runtime σ β) (ch : ChallengeRequest β) (w : World σ β) :
    Except GoError Unit × World σ β :=
  makeRequest rt ch (Client.DeleteRecord rt) w

/-! ## A provider holding a set of id-tagged records

The provider side of the API as the idempotence property describes it: the lookup returns the
records matching the filter, POST adds the posted record, DELETE removes the record the URL
addresses. Records are stored under their zone-relative name and reported with `suffix`
appended to the name (the empty suffix reports them as posted). -/

/-- The documents on the wire, each kept as the value it encodes. -/
inductive Doc where
  | params (p : DnsGetParams)
  | record (r : DnsRecord)
  | records (d : DnsRecords)
  | other (s : String)
deriving DecidableEq, Repr

/-- The provider's state: the stored records, the id the next record gets, and the clock. -/
structure Provider where
  records : List DnsRecordWithId
  nextId : Int
  clock : Int
deriving DecidableEq, Repr

/-- A stored record satisfies a lookup filter: same name, content and ttl, type among the
filter's types. -/
def Provider.satisfies (p : DnsGetParams) (r : DnsRecordWithId) : Bool :=
  decide (r.DnsRecord.Name = p.Filters.Name) && p.Filters.Type'.contains r.DnsRecord.Type'
    && decide (r.DnsRecord.Content = p.Filters.Content) && decide (r.DnsRecord.Ttl = p.Filters.Ttl)

/-- The stored records a lookup for `record` selects. -/
def Provider.matching (P : Provider) (record : DnsRecord) : List DnsRecordWithId :=
  P.records.filter (Provider.satisfies record.GetParams)

/-- A stored record as the provider reports it: the name with `suffix` appended. -/
def Provider.report (suffix : String) (r : DnsRecordWithId) : DnsRecordWithId :=
  ⟨r.Id, ⟨r.DnsRecord.Type', r.DnsRecord.Name ++ suffix, r.DnsRecord.Content, r.DnsRecord.Ttl⟩⟩

/-- The provider answering one request. -/
def Provider.Do (c : Client) (suffix : String) (req : HttpRequest Doc) (P : Provider) :
    Except GoError (HttpResponse Doc) × Provider :=
  if req.Method = "GET" then
    match req.Body with
    | some (.params p) =>
      (.ok ⟨200, .ok (.records ⟨(P.records.filter (Provider.satisfies p)).map
        (Provider.report suffix)⟩)⟩, P)
    | _ => (.ok ⟨400, .ok (.other "bad request")⟩, P)
  else if req.Method = "POST" then
    match req.Body with
    | some (.record r) =>
      (.ok ⟨200, .ok (.record r)⟩, ⟨P.records ++ [⟨P.nextId, r⟩], P.nextId + 1, P.clock⟩)
    | _ => (.ok ⟨400, .ok (.other "bad request")⟩, P)
  else if req.Method = "DELETE" then
    (.ok ⟨204, .ok (.other "")⟩,
      ⟨P.records.filter (fun r => !decide (c.ApiUrl (some r.Id) = req.URL)), P.nextId, P.clock⟩)
  else (.ok ⟨405, .ok (.other "method not allowed")⟩, P)

/-- The text of a document, for error messages. -/
def Doc.text : Doc → String
  | .params p => reprStr p
  | .record r => reprStr r
  | .records d => reprStr d
  | .other s => s

/-- The runtime in which the API is served by such a provider for the client `c`. -/
def providerRuntime (c : Client) (suffix : String) : Runtime Provider Doc where
  parseURL url := .ok (String.mk (url.data.drop c.BaseUrl.length))
  now P := P.clock
  formatRFC3339 t := toString t
  Do := Provider.Do c suffix
  marshalParams p := .ok (.params p)
  marshalRecord r := .ok (.record r)
  unmarshalRecords
    | .records d => .ok d
    | .params _ => .ok ⟨[]⟩
    | .record _ => .ok ⟨[]⟩
    | .other _ => .error ⟨"invalid character"⟩
  unmarshalConfig _ := .ok ⟨⟨"active24-credentials", ""⟩⟩
  getSecret _ _ _ :=
    .ok ⟨[("apiKey", c.Config.ApiKey), ("apiSecret", c.Config.ApiSecret),
      ("serviceId", c.Config.ServiceId)]⟩
  text := Doc.text

/-! ## Notions used to state the properties -/

/-- The candidate equals the target record on type, content and ttl, and on the name once the
configured zone suffix is stripped from the candidate's name. -/
def Client.fieldsEqual (c : Client) (record : DnsRecord) (f : DnsRecordWithId) : Prop :=
  f.DnsRecord.Type' = record.Type' ∧
    strings.TrimSuffix f.DnsRecord.Name c.Config.DnsZone = record.Name ∧
    f.DnsRecord.Content = record.Content ∧ f.DnsRecord.Ttl = record.Ttl

instance (c : Client) (record : DnsRecord) (f : DnsRecordWithId) :
    Decidable (c.fieldsEqual record f) := by
  unfold Client.fieldsEqual; infer_instance

/-- The calls of `Client.Request` made after the world `w`, up to the later world `w1`. -/
def World.callsSince (w1 w : World σ β) : List (Call β) :=
  w1.calls.drop w.calls.length

/-! ## Concrete inputs -/

/-- A client for service 12345 and zone suffix ".example.com". -/
def exampleClient : Client := ⟨⟨"key", "secret", ".example.com", "12345"⟩⟩

/-- The same client configured with the zone "example.com", without the leading dot. -/
def exampleClientNoDot : Client := ⟨⟨"key", "secret", "example.com", "12345"⟩⟩

/-- The challenge record of the scenarios. -/
def exampleRecord : DnsRecord := ⟨"TXT", "_acme-challenge", "abc123", 300⟩

/-- A world whose provider stores `records`, with no call made yet. -/
def exampleWorld (records : List DnsRecordWithId) : World Provider Doc :=
  ⟨⟨records, 8, 1000⟩, []⟩

/-- The challenge of the scenarios. -/
def exampleChallenge : ChallengeRequest Doc :=
  ⟨"_acme-challenge.example.com.", "example.com.", "abc123", "default", none⟩

/-- The credential the example runtime serves. -/
def exampleSecret : Secret :=
  ⟨[("apiKey", "key"), ("apiSecret", "secret"), ("serviceId", "12345")]⟩

/-- The runtime of the scenarios: the provider reports names with ".example.com" appended. -/
def exampleRuntime : Runtime Provider Doc := providerRuntime exampleClient ".example.com"

/-- A record whose zone-relative name itself ends in ".example.com". -/
def exampleNestedRecord : DnsRecord := ⟨"TXT", "_acme-challenge.example.com", "abc123", 300⟩

/-- The number a string of decimal digits denotes. -/
def decimalValue (l : List Char) : Nat := l.foldl (fun a ch => a * 10 + (ch.toNat - 48)) 0

/-! ## Lemmas -/

theorem TrimSuffix_append (a b : String) : strings.TrimSuffix (a ++ b) b = a := by
  unfold strings.TrimSuffix strings.HasSuffix
  have h : b.data.isSuffixOf (a ++ b).data = true := by
    rw [List.isSuffixOf_iff_suffix]; exact ⟨a.data, by simp⟩
  rw [if_pos h]
  simp [String.ext_iff]

theorem fieldsEqual_iff (c : Client) (record : DnsRecord) (f : DnsRecordWithId) :
    c.fieldsEqual record f ↔
      record = ⟨f.DnsRecord.Type', strings.TrimSuffix f.DnsRecord.Name c.Config.DnsZone,
        f.DnsRecord.Content, f.DnsRecord.Ttl⟩ := by
  cases record
  simp only [Client.fieldsEqual, DnsRecord.mk.injEq]
  constructor
  · rintro ⟨h1, h2, h3, h4⟩; exact ⟨h1.symm, h2.symm, h3.symm, h4.symm⟩
  · rintro ⟨h1, h2, h3, h4⟩; exact ⟨h1.symm, h2.symm, h3.symm, h4.symm⟩

theorem Request_calls (rt : Runtime σ β) (c : Client) (method : String) (id : Option Int)
    (data : Option β) (w : World σ β) :
    (c.Request rt method id data w).2.calls = w.calls ++ [⟨method, c.ApiUrl id, data⟩] := by
  unfold Client.Request
  split
  · rfl
  · split
    · rfl
    · split
      · rfl
      · split <;> rfl

theorem GetRecordId_of_found (rt : Runtime σ β) (c : Client) (record : DnsRecord)
    (w w1 : World σ β) (found : List DnsRecordWithId)
    (hfind : c.FindRecords rt record w = (.ok found, w1)) :
    (found = [] → c.GetRecordId rt record w = (.ok none, w1)) ∧
    (∀ f0, found = [f0] → c.GetRecordId rt record w =
      if c.fieldsEqual record f0 then (.ok (some f0.Id), w1)
      else (.error (expectedRecordError record [⟨f0.Id, ⟨f0.DnsRecord.Type',
        strings.TrimSuffix f0.DnsRecord.Name c.Config.DnsZone, f0.DnsRecord.Content,
        f0.DnsRecord.Ttl⟩⟩]), w1)) ∧
    (2 ≤ found.length →
      c.GetRecordId rt record w = (.error (expectedRecordError record found), w1)) := by
  refine ⟨?_, ?_, ?_⟩
  · rintro rfl
    simp [Client.GetRecordId, hfind]
  · rintro f0 rfl
    simp only [Client.GetRecordId, hfind, List.length_singleton, one_ne_zero, if_false,
      fieldsEqual_iff]
  · intro h2
    match found, hfind, h2 with
    | _ :: _ :: _, hfind, _ => simp [Client.GetRecordId, hfind]

/-- C1: `GetRecordId` is determined by the candidate list of a successful lookup. It returns
absent (no id, no error) iff the list is empty; it returns id `i` iff the list is one candidate
with id `i` whose type, content, ttl and zone-stripped name equal the target's; in every other
case it returns an error. The world is left as the lookup left it. -/
theorem GetRecordId_determined_by_candidates (rt : Runtime σ β) (c : Client)
    (record : DnsRecord) (w w1 : World σ β) (found : List DnsRecordWithId)
    (hfind : c.FindRecords rt record w = (.ok found, w1)) :
    (c.GetRecordId rt record w = (.ok none, w1) ↔ found = []) ∧
    (∀ i, c.GetRecordId rt record w = (.ok (some i), w1) ↔
      ∃ f, found = [f] ∧ f.Id = i ∧ c.fieldsEqual record f) ∧
    (found ≠ [] → (¬ ∃ f, found = [f] ∧ c.fieldsEqual record f) →
      ∃ err, c.GetRecordId rt record w = (.error err, w1)) := by
  obtain ⟨h0, h1, h2⟩ := GetRecordId_of_found rt c record w w1 found hfind
  match found, h0, h1, h2 with
  | [], h0, _, _ => simp [h0]
  | [f0], _, h1, _ =>
    rw [h1 f0 rfl]
    by_cases hf : c.fieldsEqual record f0
    · simp [hf]
    · simp [hf]
  | _ :: _ :: _, _, _, h2 => simp [h2]

/-- C8: for every response that was received and read, `Request` returns an error iff the
status is at least 400; the error's text is "api request failed: " followed by the body; for a
status below 400 it returns the body unchanged and no error. -/
theorem Request_classifies_by_status (rt : Runtime σ β) (c : Client) (method : String)
    (id : Option Int) (data : Option β) (w : World σ β) (req : HttpRequest β) (status : Int)
    (body : β) (st : σ)
    (hreq : c.newRequest rt method (c.ApiUrl id) data w.st = .ok req)
    (hdo : rt.Do req w.st = (.ok ⟨status, .ok body⟩, st)) :
    ((∃ err, (c.Request rt method id data w).1 = .error err) ↔ status ≥ 400) ∧
    (status ≥ 400 →
      (c.Request rt method id data w).1 = .error ⟨"api request failed: " ++ rt.text body⟩) ∧
    (status < 400 → (c.Request rt method id data w).1 = .ok body) := by
  by_cases hs : status ≥ 400
  · have : (c.Request rt method id data w).1 =
        .error ⟨"api request failed: " ++ rt.text body⟩ := by
      simp only [Client.Request, hreq, hdo, if_pos hs]
    exact ⟨⟨fun _ => hs, fun _ => ⟨_, this⟩⟩, fun _ => this, fun h => absurd hs (not_le.2 h)⟩
  · have : (c.Request rt method id data w).1 = .ok body := by
      simp only [Client.Request, hreq, hdo, if_neg hs]
    refine ⟨⟨?_, fun h => absurd h hs⟩, fun h => absurd h hs, fun _ => this⟩
    rintro ⟨err, he⟩
    rw [this] at he
    cases he

theorem TrimSuffix_dot_zone (z : String) :
    strings.TrimSuffix ("." ++ z) "." = if z = "" then "" else "." ++ strings.TrimSuffix z "." := by
  by_cases hz : z = ""
  · subst hz; decide
  · rw [if_neg hz]
    by_cases hs : strings.HasSuffix z "." = true
    · have hs' := hs
      unfold strings.HasSuffix at hs'
      rw [List.isSuffixOf_iff_suffix] at hs'
      obtain ⟨l, hl⟩ := hs'
      have hzl : z = String.mk l ++ "." := by
        apply String.ext; simp [← hl]
      rw [hzl, ← String.append_assoc, TrimSuffix_append, TrimSuffix_append]
    · have hs2 : ¬ strings.HasSuffix ("." ++ z) "." = true := by
        intro h
        apply hs
        unfold strings.HasSuffix at h ⊢
        rw [List.isSuffixOf_iff_suffix] at h ⊢
        have hd : ("." ++ z).data = '.' :: z.data := by simp
        have hd1 : (".":String).data = ['.'] := rfl
        rw [hd, List.suffix_cons_iff] at h
        rcases h with h | h
        · rw [hd1] at h
          simp only [List.cons.injEq, true_and] at h
          exact absurd (String.ext (h.symm.trans rfl)) hz
        · exact h
      unfold strings.TrimSuffix
      rw [if_neg hs2, if_neg hs]

/-- C6: a challenge whose resolved FQDN is `label + "." + resolvedZone` is mapped by `dnsRecord`
to exactly the record of type "TXT", name `label`, content the key, ttl 300. -/
theorem dnsRecord_of_label (ch : ChallengeRequest β) (label : String)
    (hfqdn : ch.ResolvedFQDN = label ++ "." ++ ch.ResolvedZone) :
    dnsRecord ch = ⟨"TXT", label, ch.Key, 300⟩ := by
  unfold dnsRecord
  rw [hfqdn, String.append_assoc, TrimSuffix_append]

/-- C6 at FQDN "_acme-challenge.example.com.", zone "example.com.", key "abc123". -/
theorem dnsRecord_of_label_witness :
    dnsRecord exampleChallenge = ⟨"TXT", "_acme-challenge", "abc123", 300⟩ :=
  dnsRecord_of_label exampleChallenge "_acme-challenge" (by decide)

/-- C7 fails as stated: for the resolved zone "example.com." the zone field built by `newClient`
is ".example.com", with a leading dot, not the resolved zone with its trailing dot stripped
("example.com"). -/
theorem newClient_zone_keeps_leading_dot :
    exampleChallenge.ResolvedZone = "example.com." ∧
    strings.TrimSuffix exampleChallenge.ResolvedZone "." = "example.com" ∧
    (newClient exampleChallenge exampleSecret).Config.DnsZone = ".example.com" ∧
    (newClient exampleChallenge exampleSecret).Config.DnsZone ≠
      strings.TrimSuffix exampleChallenge.ResolvedZone "." := by
  decide

/-- C7, amended: the zone field built by `newClient` is a dot followed by the resolved zone
with its trailing dot stripped (the empty string for an empty resolved zone); apiKey, apiSecret
and serviceId are the credential's "apiKey", "apiSecret" and "serviceId" entries. -/
theorem newClient_config (ch : ChallengeRequest β) (secret : Secret) :
    (newClient ch secret).Config.DnsZone =
      (if ch.ResolvedZone = "" then "" else "." ++ strings.TrimSuffix ch.ResolvedZone ".") ∧
    (newClient ch secret).Config.ApiKey = secret.get "apiKey" ∧
    (newClient ch secret).Config.ApiSecret = secret.get "apiSecret" ∧
    (newClient ch secret).Config.ServiceId = secret.get "serviceId" :=
  ⟨TrimSuffix_dot_zone ch.ResolvedZone, rfl, rfl, rfl⟩

/-- C1 at a provider storing the challenge record under id 7: the lookup returns the one
candidate, and `GetRecordId` returns an id exactly when it is that candidate's. -/
theorem GetRecordId_determined_by_candidates_witness :
    exampleClient.FindRecords exampleRuntime exampleRecord (exampleWorld [⟨7, exampleRecord⟩]) =
      (.ok [⟨7, ⟨"TXT", "_acme-challenge.example.com", "abc123", 300⟩⟩],
        ⟨⟨[⟨7, exampleRecord⟩], 8, 1000⟩,
          [⟨"GET", exampleClient.ApiUrl none, some (.params exampleRecord.GetParams)⟩]⟩) ∧
    ∀ i, exampleClient.GetRecordId exampleRuntime exampleRecord
        (exampleWorld [⟨7, exampleRecord⟩]) =
          (.ok (some i), ⟨⟨[⟨7, exampleRecord⟩], 8, 1000⟩,
            [⟨"GET", exampleClient.ApiUrl none, some (.params exampleRecord.GetParams)⟩]⟩) ↔
        ∃ f, [(⟨7, ⟨"TXT", "_acme-challenge.example.com", "abc123", 300⟩⟩ : DnsRecordWithId)] = [f] ∧
          f.Id = i ∧ exampleClient.fieldsEqual exampleRecord f :=
  ⟨rfl, (GetRecordId_determined_by_candidates exampleRuntime exampleClient exampleRecord
    (exampleWorld [⟨7, exampleRecord⟩]) _ _ rfl).2.1⟩

/-- C8 at a GET without a body, which the example provider answers with status 400 and the
body "bad request". -/
theorem Request_classifies_by_status_witness :
    (exampleClient.Request exampleRuntime "GET" none none (exampleWorld [])).1 =
      .error ⟨"api request failed: bad request"⟩ :=
  (Request_classifies_by_status exampleRuntime exampleClient "GET" none none (exampleWorld [])
    ⟨"GET", "https://rest.active24.cz/v2/service/12345/dns/record",
      "/v2/service/12345/dns/record", none, "application/json", "application/json", "1000",
      "key", signatureHash "secret" "GET" "/v2/service/12345/dns/record" 1000⟩
    400 (.other "bad request") ⟨[], 8, 1000⟩ rfl rfl).2.1 (by decide)

/-- C5 fails as stated: with the configured zone "example.com" the strip turns the candidate's
name "_acme-challenge.example.com" into "_acme-challenge." (the dot stays), the equality with
the target fails, and `GetRecordId` returns an error. -/
theorem GetRecordId_zone_without_dot_rejects :
    exampleClientNoDot.Config.DnsZone = "example.com" ∧
    exampleClientNoDot.FindRecords exampleRuntime exampleRecord
        (exampleWorld [⟨7, exampleRecord⟩]) =
      (.ok [⟨7, ⟨"TXT", "_acme-challenge.example.com", "abc123", 300⟩⟩],
        ⟨⟨[⟨7, exampleRecord⟩], 8, 1000⟩,
          [⟨"GET", exampleClientNoDot.ApiUrl none, some (.params exampleRecord.GetParams)⟩]⟩) ∧
    strings.TrimSuffix "_acme-challenge.example.com" "example.com" = "_acme-challenge." ∧
    exampleClientNoDot.GetRecordId exampleRuntime exampleRecord
        (exampleWorld [⟨7, exampleRecord⟩]) =
      (.error (expectedRecordError exampleRecord
          [⟨7, ⟨"TXT", "_acme-challenge.", "abc123", 300⟩⟩]),
        ⟨⟨[⟨7, exampleRecord⟩], 8, 1000⟩,
          [⟨"GET", exampleClientNoDot.ApiUrl none, some (.params exampleRecord.GetParams)⟩]⟩) :=
  ⟨rfl, rfl, by decide, rfl⟩

/-- C5, amended: with the configured zone ".example.com" (leading dot, as `newClient` builds
it), the target record and the single candidate of the scenario, the strip turns the
candidate's name into "_acme-challenge", the four-field equality holds, and `GetRecordId`
returns id 7 with no error. -/
theorem GetRecordId_scenario (rt : Runtime σ β) (c : Client) (w w1 : World σ β)
    (hzone : c.Config.DnsZone = ".example.com")
    (hfind : c.FindRecords rt ⟨"TXT", "_acme-challenge", "abc123", 300⟩ w =
      (.ok [⟨7, ⟨"TXT", "_acme-challenge.example.com", "abc123", 300⟩⟩], w1)) :
    strings.TrimSuffix "_acme-challenge.example.com" c.Config.DnsZone = "_acme-challenge" ∧
    c.fieldsEqual ⟨"TXT", "_acme-challenge", "abc123", 300⟩
      ⟨7, ⟨"TXT", "_acme-challenge.example.com", "abc123", 300⟩⟩ ∧
    c.GetRecordId rt ⟨"TXT", "_acme-challenge", "abc123", 300⟩ w = (.ok (some 7), w1) := by
  have ht : strings.TrimSuffix "_acme-challenge.example.com" c.Config.DnsZone
      = "_acme-challenge" := by rw [hzone]; decide
  have hf : c.fieldsEqual ⟨"TXT", "_acme-challenge", "abc123", 300⟩
      ⟨7, ⟨"TXT", "_acme-challenge.example.com", "abc123", 300⟩⟩ := ⟨rfl, ht, rfl, rfl⟩
  refine ⟨ht, hf, ?_⟩
  rw [(GetRecordId_of_found rt c _ w w1 _ hfind).2.1 _ rfl, if_pos hf]

/-- C5, amended, at the example provider storing the challenge record under id 7. -/
theorem GetRecordId_scenario_witness :
    exampleClient.GetRecordId exampleRuntime ⟨"TXT", "_acme-challenge", "abc123", 300⟩
        (exampleWorld [⟨7, exampleRecord⟩]) =
      (.ok (some 7), ⟨⟨[⟨7, exampleRecord⟩], 8, 1000⟩,
        [⟨"GET", exampleClient.ApiUrl none, some (.params exampleRecord.GetParams)⟩]⟩) :=
  (GetRecordId_scenario exampleRuntime exampleClient (exampleWorld [⟨7, exampleRecord⟩]) _
    rfl rfl).2.2

/-- C10: the adapter and the matcher agree on normalization. For a non-empty resolved zone `z`
and FQDN `label + "." + z`, when the lookup made with the config of `newClient` and the record
of `dnsRecord` returns the single candidate with id `i`, type "TXT", name
`label + "." + (z without its trailing dot)`, content the key and ttl 300, `GetRecordId` returns
`i`; `Present` succeeds with the world as the lookup left it (no POST), and `CleanUp` makes
exactly one further call, the DELETE of id `i`. -/
theorem adapter_and_matcher_agree (rt : Runtime σ β) (ch : ChallengeRequest β)
    (secret : Secret) (label : String) (i : Int) (w w1 : World σ β)
    (hzone : ch.ResolvedZone ≠ "")
    (hfqdn : ch.ResolvedFQDN = label ++ "." ++ ch.ResolvedZone)
    (hsecret : loadSecret rt ch w.st = .ok secret)
    (hfind : (newClient ch secret).FindRecords rt (dnsRecord ch) w =
      (.ok [⟨i, ⟨"TXT", label ++ "." ++ strings.TrimSuffix ch.ResolvedZone ".", ch.Key, 300⟩⟩],
        w1)) :
    (newClient ch secret).GetRecordId rt (dnsRecord ch) w = (.ok (some i), w1) ∧
    Present rt ch w = (.ok (), w1) ∧
    (CleanUp rt ch w).2 = ((newClient ch secret).Request rt "DELETE" (some i) none w1).2 ∧
    (CleanUp rt ch w).2.callsSince w1 =
      [⟨"DELETE", (newClient ch secret).ApiUrl (some i), none⟩] := by
  have hrec : dnsRecord ch = ⟨"TXT", label, ch.Key, 300⟩ := by
    unfold dnsRecord
    rw [hfqdn, String.append_assoc, TrimSuffix_append]
  have hz : (newClient ch secret).Config.DnsZone =
      "." ++ strings.TrimSuffix ch.ResolvedZone "." := by
    show strings.TrimSuffix ("." ++ ch.ResolvedZone) "." = _
    rw [TrimSuffix_dot_zone, if_neg hzone]
  have hf : (newClient ch secret).fieldsEqual (dnsRecord ch)
      ⟨i, ⟨"TXT", label ++ "." ++ strings.TrimSuffix ch.ResolvedZone ".", ch.Key, 300⟩⟩ := by
    refine ⟨by rw [hrec], ?_, by rw [hrec], by rw [hrec]⟩
    show strings.TrimSuffix (label ++ "." ++ strings.TrimSuffix ch.ResolvedZone ".") _ = _
    rw [hz, String.append_assoc, TrimSuffix_append, hrec]
  have hg : (newClient ch secret).GetRecordId rt (dnsRecord ch) w = (.ok (some i), w1) := by
    rw [(GetRecordId_of_found rt _ _ w w1 _ hfind).2.1 _ rfl, if_pos hf]
  have hclean : (CleanUp rt ch w).2 =
      ((newClient ch secret).Request rt "DELETE" (some i) none w1).2 := by
    simp only [CleanUp, makeRequest, hsecret, Client.DeleteRecord, hg]
    split <;> rename_i h <;> rw [h]
  refine ⟨hg, ?_, hclean, ?_⟩
  · simp only [Present, makeRequest, hsecret, Client.CreateRecord, hg]
  · rw [hclean]
    simp [World.callsSince, Request_calls]

/-- C10 at the example challenge, against a provider storing its record under id 7. -/
theorem adapter_and_matcher_agree_witness :
    Present exampleRuntime exampleChallenge (exampleWorld [⟨7, exampleRecord⟩]) =
      (.ok (), ⟨⟨[⟨7, exampleRecord⟩], 8, 1000⟩,
        [⟨"GET", exampleClient.ApiUrl none, some (.params exampleRecord.GetParams)⟩]⟩) ∧
    (CleanUp exampleRuntime exampleChallenge (exampleWorld [⟨7, exampleRecord⟩])).2.callsSince
        ⟨⟨[⟨7, exampleRecord⟩], 8, 1000⟩,
          [⟨"GET", exampleClient.ApiUrl none, some (.params exampleRecord.GetParams)⟩]⟩ =
      [⟨"DELETE", (newClient exampleChallenge exampleSecret).ApiUrl (some 7), none⟩] :=
  have h := adapter_and_matcher_agree exampleRuntime exampleChallenge exampleSecret
    "_acme-challenge" 7 (exampleWorld [⟨7, exampleRecord⟩])
    ⟨⟨[⟨7, exampleRecord⟩], 8, 1000⟩,
      [⟨"GET", exampleClient.ApiUrl none, some (.params exampleRecord.GetParams)⟩]⟩
    (by decide) (by decide) rfl rfl
  ⟨h.2.1, h.2.2.2⟩

theorem provider_FindRecords (c : Client) (suffix : String) (record : DnsRecord)
    (w : World Provider Doc) :
    c.FindRecords (providerRuntime c suffix) record w =
      (.ok ((w.st.matching record).map (Provider.report suffix)),
        ⟨w.st, w.calls ++ [⟨"GET", c.ApiUrl none, some (.params record.GetParams)⟩]⟩) := by
  simp [Client.FindRecords, Client.Request, Client.newRequest, providerRuntime, Provider.Do,
    Provider.matching]

theorem provider_POST (c : Client) (suffix : String) (record : DnsRecord)
    (w : World Provider Doc) :
    c.Request (providerRuntime c suffix) "POST" none (some (.record record)) w =
      (.ok (.record record),
        ⟨⟨w.st.records ++ [⟨w.st.nextId, record⟩], w.st.nextId + 1, w.st.clock⟩,
          w.calls ++ [⟨"POST", c.ApiUrl none, some (.record record)⟩]⟩) := by
  have h : ¬ ("POST" : String) = "GET" := by decide
  simp [Client.Request, Client.newRequest, providerRuntime, Provider.Do, h]

theorem provider_DELETE (c : Client) (suffix : String) (id : Int)
    (w : World Provider Doc) :
    c.Request (providerRuntime c suffix) "DELETE" (some id) none w =
      (.ok (.other ""),
        ⟨⟨w.st.records.filter (fun r => !decide (c.ApiUrl (some r.Id) = c.ApiUrl (some id))),
            w.st.nextId, w.st.clock⟩,
          w.calls ++ [⟨"DELETE", c.ApiUrl (some id), none⟩]⟩) := by
  have h : ¬ ("DELETE" : String) = "GET" := by decide
  have h' : ¬ ("DELETE" : String) = "POST" := by decide
  simp [Client.Request, Client.newRequest, providerRuntime, Provider.Do, h, h']

theorem satisfies_self (record : DnsRecord) (id : Int) :
    Provider.satisfies record.GetParams ⟨id, record⟩ = true := by
  simp [Provider.satisfies, DnsRecord.GetParams]

theorem report_of_satisfies (suffix : String) (record : DnsRecord) (m : DnsRecordWithId)
    (h : Provider.satisfies record.GetParams m = true) :
    Provider.report suffix m =
      ⟨m.Id, ⟨record.Type', record.Name ++ suffix, record.Content, record.Ttl⟩⟩ := by
  simp [Provider.satisfies, DnsRecord.GetParams] at h
  obtain ⟨⟨⟨h1, h2⟩, h3⟩, h4⟩ := h
  simp [Provider.report, h1, h2, h3, h4]

theorem provider_GetRecordId (c : Client) (suffix : String) (record : DnsRecord)
    (w : World Provider Doc)
    (hname : strings.TrimSuffix (record.Name ++ suffix) c.Config.DnsZone = record.Name) :
    (w.st.matching record = [] → c.GetRecordId (providerRuntime c suffix) record w =
      (.ok none, ⟨w.st, w.calls ++ [⟨"GET", c.ApiUrl none, some (.params record.GetParams)⟩]⟩)) ∧
    (∀ m, w.st.matching record = [m] → c.GetRecordId (providerRuntime c suffix) record w =
      (.ok (some m.Id),
        ⟨w.st, w.calls ++ [⟨"GET", c.ApiUrl none, some (.params record.GetParams)⟩]⟩)) := by
  have hfind := provider_FindRecords c suffix record w
  obtain ⟨h0, h1, -⟩ := GetRecordId_of_found _ c record w _ _ hfind
  constructor
  · intro hm
    exact h0 (by rw [hm]; rfl)
  · intro m hm
    have hsat : Provider.satisfies record.GetParams m = true := by
      have : m ∈ w.st.matching record := by rw [hm]; simp
      exact (List.mem_filter.1 this).2
    have hrep := report_of_satisfies suffix record m hsat
    have hf : c.fieldsEqual record (Provider.report suffix m) := by
      rw [hrep]; exact ⟨rfl, hname, rfl, rfl⟩
    rw [h1 (Provider.report suffix m) (by rw [hm]; rfl), if_pos hf]
    rfl

theorem provider_CreateRecord (c : Client) (suffix : String) (record : DnsRecord)
    (w : World Provider Doc)
    (hname : strings.TrimSuffix (record.Name ++ suffix) c.Config.DnsZone = record.Name) :
    (w.st.matching record = [] → c.CreateRecord (providerRuntime c suffix) record w =
      (.ok (), ⟨⟨w.st.records ++ [⟨w.st.nextId, record⟩], w.st.nextId + 1, w.st.clock⟩,
        w.calls ++ [⟨"GET", c.ApiUrl none, some (.params record.GetParams)⟩,
          ⟨"POST", c.ApiUrl none, some (.record record)⟩]⟩)) ∧
    (∀ m, w.st.matching record = [m] → c.CreateRecord (providerRuntime c suffix) record w =
      (.ok (), ⟨w.st, w.calls ++ [⟨"GET", c.ApiUrl none, some (.params record.GetParams)⟩]⟩)) := by
  obtain ⟨h0, h1⟩ := provider_GetRecordId c suffix record w hname
  constructor
  · intro hm
    have hmarshal : (providerRuntime c suffix).marshalRecord record = .ok (.record record) := rfl
    simp only [Client.CreateRecord, h0 hm, hmarshal, provider_POST]
    simp
  · intro m hm
    simp only [Client.CreateRecord, h1 m hm]

theorem provider_DeleteRecord (c : Client) (suffix : String) (record : DnsRecord)
    (w : World Provider Doc)
    (hname : strings.TrimSuffix (record.Name ++ suffix) c.Config.DnsZone = record.Name) :
    (w.st.matching record = [] → c.DeleteRecord (providerRuntime c suffix) record w =
      (.ok (), ⟨w.st, w.calls ++ [⟨"GET", c.ApiUrl none, some (.params record.GetParams)⟩]⟩)) ∧
    (∀ m, w.st.matching record = [m] → c.DeleteRecord (providerRuntime c suffix) record w =
      (.ok (), ⟨⟨w.st.records.filter
          (fun r => !decide (c.ApiUrl (some r.Id) = c.ApiUrl (some m.Id))),
          w.st.nextId, w.st.clock⟩,
        w.calls ++ [⟨"GET", c.ApiUrl none, some (.params record.GetParams)⟩,
          ⟨"DELETE", c.ApiUrl (some m.Id), none⟩]⟩)) := by
  obtain ⟨h0, h1⟩ := provider_GetRecordId c suffix record w hname
  constructor
  · intro hm
    simp only [Client.DeleteRecord, h0 hm]
  · intro m hm
    simp only [Client.DeleteRecord, h1 m hm, provider_DELETE]
    simp

theorem matching_after_post (P : Provider) (record : DnsRecord) (id n t : Int) :
    Provider.matching ⟨P.records ++ [⟨id, record⟩], n, t⟩ record =
      P.matching record ++ [⟨id, record⟩] := by
  simp [Provider.matching, List.filter_append, satisfies_self]

theorem matching_after_delete (c : Client) (P : Provider) (record : DnsRecord)
    (m : DnsRecordWithId) (n t : Int) (hm : P.matching record = [m]) :
    Provider.matching ⟨P.records.filter
      (fun r => !decide (c.ApiUrl (some r.Id) = c.ApiUrl (some m.Id))), n, t⟩ record = [] := by
  unfold Provider.matching at hm ⊢
  simp only
  rw [List.filter_filter]
  have : List.filter (fun a => Provider.satisfies record.GetParams a &&
      !decide (c.ApiUrl (some a.Id) = c.ApiUrl (some m.Id))) P.records =
      List.filter (fun r => !decide (c.ApiUrl (some r.Id) = c.ApiUrl (some m.Id)))
        (List.filter (Provider.satisfies record.GetParams) P.records) := by
    rw [List.filter_filter]
    congr 1
    funext a
    exact Bool.and_comm _ _
  rw [this, hm]
  simp

/-- C2, amended: against a provider holding a set of id-tagged records that holds at most one
record matching the lookup filter, and that reports the record under a name which the
zone-suffix strip maps back to the record's name, `CreateRecord` and `DeleteRecord` are
idempotent. Two calls of `CreateRecord` both succeed and leave exactly one matching record,
the second making the lookup GET only (no POST); two calls of `DeleteRecord` both succeed and
leave no matching record. -/
theorem create_delete_idempotent (c : Client) (suffix : String) (record : DnsRecord)
    (w : World Provider Doc)
    (hname : strings.TrimSuffix (record.Name ++ suffix) c.Config.DnsZone = record.Name)
    (hone : (w.st.matching record).length ≤ 1) :
    (c.CreateRecord (providerRuntime c suffix) record w).1 = .ok () ∧
    (c.CreateRecord (providerRuntime c suffix) record
      (c.CreateRecord (providerRuntime c suffix) record w).2).1 = .ok () ∧
    ((c.CreateRecord (providerRuntime c suffix) record
      (c.CreateRecord (providerRuntime c suffix) record w).2).2.st.matching record).length = 1 ∧
    ((c.CreateRecord (providerRuntime c suffix) record
      (c.CreateRecord (providerRuntime c suffix) record w).2).2.callsSince
        (c.CreateRecord (providerRuntime c suffix) record w).2 =
      [⟨"GET", c.ApiUrl none, some (.params record.GetParams)⟩]) ∧
    (c.DeleteRecord (providerRuntime c suffix) record w).1 = .ok () ∧
    (c.DeleteRecord (providerRuntime c suffix) record
      (c.DeleteRecord (providerRuntime c suffix) record w).2).1 = .ok () ∧
    ((c.DeleteRecord (providerRuntime c suffix) record
      (c.DeleteRecord (providerRuntime c suffix) record w).2).2.st.matching record).length = 0 := by
  match hmatch : w.st.matching record, hone with
  | [], _ =>
    have hc1 := (provider_CreateRecord c suffix record w hname).1 hmatch
    have hd1 := (provider_DeleteRecord c suffix record w hname).1 hmatch
    have hm1 : Provider.matching (c.CreateRecord (providerRuntime c suffix) record w).2.st record
        = [⟨w.st.nextId, record⟩] := by
      rw [hc1]; simp only; rw [matching_after_post, hmatch]; rfl
    have hc2 := (provider_CreateRecord c suffix record _ hname).2 _ hm1
    have hm2 : Provider.matching (c.DeleteRecord (providerRuntime c suffix) record w).2.st record
        = [] := by
      rw [hd1]; exact hmatch
    have hd2 := (provider_DeleteRecord c suffix record _ hname).1 hm2
    refine ⟨by rw [hc1], by rw [hc2], by rw [hc2]; simp only; rw [hm1]; rfl,
      by rw [hc2]; simp [World.callsSince], by rw [hd1], by rw [hd2], by rw [hd2]; simp only; rw [hm2]; rfl⟩
  | [m], _ =>
    have hc1 := (provider_CreateRecord c suffix record w hname).2 m hmatch
    have hd1 := (provider_DeleteRecord c suffix record w hname).2 m hmatch
    have hm1 : Provider.matching (c.CreateRecord (providerRuntime c suffix) record w).2.st record
        = [m] := by
      rw [hc1]; exact hmatch
    have hc2 := (provider_CreateRecord c suffix record _ hname).2 _ hm1
    have hm2 : Provider.matching (c.DeleteRecord (providerRuntime c suffix) record w).2.st record
        = [] := by
      rw [hd1]; exact matching_after_delete c w.st record m _ _ hmatch
    have hd2 := (provider_DeleteRecord c suffix record _ hname).1 hm2
    refine ⟨by rw [hc1], by rw [hc2], by rw [hc2]; simp only; rw [hm1]; rfl,
      by rw [hc2]; simp [World.callsSince], by rw [hd1], by rw [hd2], by rw [hd2]; simp only; rw [hm2]; rfl⟩
  | _ :: _ :: _, h => simp at h

/-- C2, amended, at the example provider holding no record yet. -/
theorem create_delete_idempotent_witness :
    (exampleClient.CreateRecord exampleRuntime exampleRecord
      (exampleClient.CreateRecord exampleRuntime exampleRecord (exampleWorld [])).2).1 = .ok () ∧
    ((exampleClient.CreateRecord exampleRuntime exampleRecord
      (exampleClient.CreateRecord exampleRuntime exampleRecord
        (exampleWorld [])).2).2.st.matching exampleRecord).length = 1 :=
  have h := create_delete_idempotent exampleClient ".example.com" exampleRecord (exampleWorld [])
    (by decide) (by decide)
  ⟨h.2.1, h.2.2.1⟩

/-- C2 fails as stated. Against a provider that holds two records matching the filter, both
calls of `CreateRecord` and both calls of `DeleteRecord` return the ambiguity error and the two
matching records stay. Against a provider that reports names as posted, for a record whose
zone-relative name ends in the configured zone suffix, the first `CreateRecord` posts the record
and the second returns an error, the strip having shortened the reported name. -/
theorem idempotence_fails_on_ambiguity :
    (exampleClient.CreateRecord exampleRuntime exampleRecord
      (exampleClient.CreateRecord exampleRuntime exampleRecord
        (exampleWorld [⟨7, exampleRecord⟩, ⟨9, exampleRecord⟩])).2).1 =
      .error (expectedRecordError exampleRecord
        [⟨7, ⟨"TXT", "_acme-challenge.example.com", "abc123", 300⟩⟩,
          ⟨9, ⟨"TXT", "_acme-challenge.example.com", "abc123", 300⟩⟩]) ∧
    ((exampleClient.CreateRecord exampleRuntime exampleRecord
      (exampleClient.CreateRecord exampleRuntime exampleRecord
        (exampleWorld [⟨7, exampleRecord⟩, ⟨9, exampleRecord⟩])).2).2.st.matching
          exampleRecord).length = 2 ∧
    (exampleClient.DeleteRecord exampleRuntime exampleRecord
      (exampleClient.DeleteRecord exampleRuntime exampleRecord
        (exampleWorld [⟨7, exampleRecord⟩, ⟨9, exampleRecord⟩])).2).1 =
      .error (expectedRecordError exampleRecord
        [⟨7, ⟨"TXT", "_acme-challenge.example.com", "abc123", 300⟩⟩,
          ⟨9, ⟨"TXT", "_acme-challenge.example.com", "abc123", 300⟩⟩]) ∧
    ((exampleClient.DeleteRecord exampleRuntime exampleRecord
      (exampleClient.DeleteRecord exampleRuntime exampleRecord
        (exampleWorld [⟨7, exampleRecord⟩, ⟨9, exampleRecord⟩])).2).2.st.matching
          exampleRecord).length = 2 ∧
    (exampleClient.CreateRecord (providerRuntime exampleClient "") exampleNestedRecord
      (exampleWorld [])).1 = .ok () ∧
    (exampleClient.CreateRecord (providerRuntime exampleClient "") exampleNestedRecord
      (exampleClient.CreateRecord (providerRuntime exampleClient "") exampleNestedRecord
        (exampleWorld [])).2).1 =
      .error (expectedRecordError exampleNestedRecord
        [⟨8, ⟨"TXT", "_acme-challenge", "abc123", 300⟩⟩]) := by
  refine ⟨rfl, by decide, rfl, by decide, rfl, rfl⟩

theorem digitChar_decimal : ∀ k, k < 10 →
    (Nat.digitChar k).toNat - 48 = k ∧ (Nat.digitChar k).isDigit = true := by
  decide

theorem toDigitsCore_spec : ∀ (fuel n : Nat) (ds : List Char), n < fuel →
    ∃ pre, Nat.toDigitsCore 10 fuel n ds = pre ++ ds ∧ pre ≠ [] ∧
      (∀ ch ∈ pre, ch.isDigit = true) ∧ decimalValue pre = n := by
  intro fuel
  induction fuel with
  | zero => intro n ds h; omega
  | succ fuel ih =>
    intro n ds h
    unfold Nat.toDigitsCore
    by_cases h0 : n / 10 = 0
    · simp only [h0, if_true]
      have hn : n < 10 := by omega
      have hmod : n % 10 = n := Nat.mod_eq_of_lt hn
      refine ⟨[Nat.digitChar (n % 10)], rfl, by simp, ?_, ?_⟩
      · intro ch hch
        simp only [List.mem_singleton] at hch
        rw [hch, hmod]; exact (digitChar_decimal n hn).2
      · simp only [decimalValue, List.foldl, Nat.zero_mul, Nat.zero_add]
        rw [hmod]; exact (digitChar_decimal n hn).1
    · simp only [h0, if_false]
      obtain ⟨pre, hpre, -, hdig, hval⟩ := ih (n / 10) (Nat.digitChar (n % 10) :: ds) (by omega)
      have hlt : n % 10 < 10 := Nat.mod_lt _ (by decide)
      refine ⟨pre ++ [Nat.digitChar (n % 10)], by rw [hpre]; simp, by simp, ?_, ?_⟩
      · intro ch hch
        rcases List.mem_append.1 hch with h1 | h1
        · exact hdig ch h1
        · simp only [List.mem_singleton] at h1
          rw [h1]; exact (digitChar_decimal _ hlt).2
      · unfold decimalValue at hval ⊢
        rw [List.foldl_append, hval]
        simp only [List.foldl]
        rw [(digitChar_decimal _ hlt).1]
        omega

theorem natRepr_spec (n : Nat) :
    (Nat.repr n).data ≠ [] ∧ (∀ ch ∈ (Nat.repr n).data, ch.isDigit = true) ∧
      decimalValue (Nat.repr n).data = n := by
  obtain ⟨pre, hpre, hne, hdig, hval⟩ := toDigitsCore_spec (n + 1) n [] (by omega)
  have : (Nat.repr n).data = pre := by
    simp [Nat.repr, Nat.toDigits, hpre, List.asString]
  rw [this]
  exact ⟨hne, hdig, hval⟩

theorem toString_int_data (t : Int) :
    (∃ n : Nat, t = Int.ofNat n ∧ (toString t).data = (Nat.repr n).data) ∨
    (∃ n : Nat, t = Int.negSucc n ∧ (toString t).data = '-' :: (Nat.repr (n + 1)).data) := by
  cases t with
  | ofNat n => exact Or.inl ⟨n, rfl, rfl⟩
  | negSucc n => exact Or.inr ⟨n, rfl, rfl⟩

theorem toString_int_injective (a b : Int) (h : toString a = toString b) : a = b := by
  have hd : (toString a).data = (toString b).data := by rw [h]
  rcases toString_int_data a with ⟨n, rfl, ha⟩ | ⟨n, rfl, ha⟩ <;>
    rcases toString_int_data b with ⟨m, rfl, hb⟩ | ⟨m, rfl, hb⟩
  · rw [ha, hb] at hd
    have := (natRepr_spec n).2.2
    rw [hd, (natRepr_spec m).2.2] at this
    rw [this]
  · rw [ha, hb] at hd
    have h1 := (natRepr_spec n).2.1 '-' (by rw [hd]; simp)
    exact absurd h1 (by decide)
  · rw [ha, hb] at hd
    have h1 := (natRepr_spec m).2.1 '-' (by rw [← hd]; simp)
    exact absurd h1 (by decide)
  · rw [ha, hb] at hd
    simp only [List.cons.injEq, true_and] at hd
    have := (natRepr_spec (n + 1)).2.2
    rw [hd, (natRepr_spec (m + 1)).2.2] at this
    have : n = m := by omega
    rw [this]

theorem ApiUrl_injective (c : Client) (i j : Int)
    (h : c.ApiUrl (some i) = c.ApiUrl (some j)) : i = j := by
  have hd := congrArg String.data h
  simp only [Client.ApiUrl, String.data_append, List.append_cancel_left_eq] at hd
  exact toString_int_injective i j (String.ext hd)

theorem provider_DELETE_removes_id (c : Client) (id : Int) (records : List DnsRecordWithId) :
    records.filter (fun r => !decide (c.ApiUrl (some r.Id) = c.ApiUrl (some id))) =
      records.filter (fun r => !decide (r.Id = id)) := by
  congr 1
  funext r
  by_cases h : r.Id = id
  · simp [h]
  · have : ¬ c.ApiUrl (some r.Id) = c.ApiUrl (some id) := fun hu => h (ApiUrl_injective c _ _ hu)
    simp [h, this]

end Active24
